import Mathlib

/-!
Shallow embedding of the Firebase token-verification core of this repository
(file `implementations/main_test.go`, package `main`): the public-key cache
(`publicKeyCache.getKey` / `publicKeyCache.refresh`), the two verifiers
(`verifyIDToken`, `verifyEmulatorToken`), and the `GET /api/me` closure built
in `newMux` (here `apiMeHandler`).

Modelling conventions:
* `time.Now()` is an explicit parameter `now : Int` (Unix seconds).
* The single outbound HTTP GET performed by `refresh` is an explicit
  `FetchOutcome` parameter describing what the network returns.
* RSA keys are opaque identifiers (`PublicKey := Nat`); an RS256 signature
  verifies under public key `k` iff the token's `sig` field is `some k`.
* A JWT string is modelled by its parse: `TokenRepr.malformed` covers every
  string that `jwt.Parser.ParseUnverified` rejects structurally (wrong number
  of segments, bad base64, bad header or claims JSON); `TokenRepr.token`
  carries the declared `alg` header (`none` = absent / not a string), the
  `kid` header, the decoded claims, and the signature abstraction.
* The dependency `github.com/golang-jwt/jwt/v4` (v4.5.2) is embedded at the
  granularity the repo uses it: `ParseUnverified` decodes the token and only
  resolves the declared `alg` against the library's registered method names
  (it deliberately ignores the parser's `ValidMethods` and
  `SkipClaimsValidation` options); `ParseWithClaims` re-parses, checks the
  declared method against `ValidMethods`, validates the registered temporal
  claims (`exp` strictly in the future, `iat` and `nbf` not in the future,
  each optional, no leeway) and verifies the signature.
* Go's `json.Unmarshal` into string fields turns an absent JSON member into
  the zero value `""`; `WireClaims` keeps the wire-level optionality and
  `decodeWire` performs that defaulting.
-/

/-- Result of a Go call returning `(value, error)`: exactly one of the two. -/
inductive GoRes (ε α : Type) where
  | ok (a : α)
  | err (e : ε)
deriving DecidableEq

def GoRes.isErr {ε α : Type} : GoRes ε α → Bool
  | .err _ => true
  | .ok _ => false

def GoRes.isOk {ε α : Type} : GoRes ε α → Bool
  | .err _ => false
  | .ok _ => true

/-- Opaque RSA public key: keys are compared only for identity. -/
abbrev PublicKey := Nat

-- ── Go string helpers used by the source ─────────────────────────────

/-- Go `strings.HasPrefix`, byte-for-byte on the character data. -/
def goHasPre (pre s : String) : Bool :=
  pre.data.isPrefixOf s.data

/-- Go `strings.TrimPrefix`: drops `pre` when it is a prefix, else identity. -/
def goTrimPre (pre s : String) : String :=
  if goHasPre pre s then ⟨s.data.drop pre.data.length⟩ else s

/-- Go `unicode.IsSpace` restricted to the one-byte code points it accepts. -/
def goIsSpace (c : Char) : Bool :=
  c.toNat == 32 || c.toNat == 9 || c.toNat == 10 || c.toNat == 11 ||
  c.toNat == 12 || c.toNat == 13 || c.toNat == 133 || c.toNat == 160

/-- Go `strings.TrimSpace` on the character data. -/
def trimSpaceChars (l : List Char) : List Char :=
  ((l.dropWhile goIsSpace).reverse.dropWhile goIsSpace).reverse

/-- Go `strings.Split (s, ",")` on the character data. -/
def splitOnComma : List Char → List (List Char)
  | [] => [[]]
  | c :: rest =>
    let r := splitOnComma rest
    if c == ',' then [] :: r
    else
      match r with
      | [] => [[c]]
      | h :: t => (c :: h) :: t

def isDigitChar (c : Char) : Bool :=
  48 ≤ c.toNat && c.toNat ≤ 57

def digitsToNat (l : List Char) : Nat :=
  l.foldl (fun acc c => acc * 10 + (c.toNat - 48)) 0

/-- Go `strconv.Atoi`: optional sign then a non-empty digit run, else error. -/
def goAtoi : List Char → Option Int
  | [] => none
  | '+' :: rest =>
    if !rest.isEmpty && rest.all isDigitChar then some (Int.ofNat (digitsToNat rest)) else none
  | '-' :: rest =>
    if !rest.isEmpty && rest.all isDigitChar then some (-(Int.ofNat (digitsToNat rest))) else none
  | l =>
    if l.all isDigitChar then some (Int.ofNat (digitsToNat l)) else none

/-- The `max-age=` directive name, as character data. -/
def maxAgeChars : List Char := "max-age=".data

/-- The `Cache-Control` parsing loop of `publicKeyCache.refresh`: start from
the default 3600, split the header on commas, trim each directive, and let
every successfully parsed `max-age=<n>` overwrite the value.  An empty header
(Go `Header.Get` returns `""` when absent) keeps the default. -/
def parseMaxAge (cc : String) : Int :=
  if cc == "" then 3600
  else
    (splitOnComma cc.data).foldl
      (fun acc d =>
        let d := trimSpaceChars d
        if maxAgeChars.isPrefixOf d then
          match goAtoi (d.drop maxAgeChars.length) with
          | some v => v
          | none => acc
        else acc)
      3600

-- ── Public key cache ─────────────────────────────────────────────────

/-- `publicKeyCache`: the `kid → *rsa.PublicKey` map plus one absolute expiry
instant for the whole set.  The `sync.RWMutex` serialises `refresh` bodies;
the embedding is the (serialised) functional content of the struct. -/
structure publicKeyCache where
  keys : List (String × PublicKey)
  expiry : Int
deriving DecidableEq

/-- Outcome of parsing one PEM certificate value from the certs JSON:
the PEM block may fail to decode, the X.509 certificate may fail to parse,
the contained public key may not be RSA, or we get an RSA key. -/
inductive CertParse where
  | pemBad
  | certBad
  | notRSA
  | rsa (k : PublicKey)
deriving DecidableEq

/-- What the single `http.Get(googleCertsURL)` of `refresh` produces:
transport error, body-read error, or a response with a status code, a body
(`none` = body is not a JSON object of strings) and a `Cache-Control` header
value (`""` = absent). -/
inductive FetchOutcome where
  | netErr
  | readErr
  | resp (status : Nat) (body : Option (List (String × CertParse))) (cacheControl : String)
deriving DecidableEq

/-- The error cases of `publicKeyCache.refresh`. -/
inductive FetchErr where
  | net
  | readBody
  | badStatus (status : Nat)
  | badJSON
  | pemDecode (kid : String)
  | certParse (kid : String)
  | notRSA (kid : String)
deriving DecidableEq

/-- The key-building loop of `refresh`: extract an RSA public key from every
certificate, aborting the whole refresh on the first bad entry. -/
def buildKeys : List (String × CertParse) → GoRes FetchErr (List (String × PublicKey))
  | [] => .ok []
  | (kid, cp) :: rest =>
    match cp with
    | .pemBad => .err (.pemDecode kid)
    | .certBad => .err (.certParse kid)
    | .notRSA => .err (.notRSA kid)
    | .rsa k =>
      match buildKeys rest with
      | .err e => .err e
      | .ok ks => .ok ((kid, k) :: ks)

/-- `publicKeyCache.refresh`: under the write lock, re-check the expiry
(double-checked refresh), fetch the certs URL, read the body, check the
status, decode the JSON, build the key map, and only then atomically replace
the whole map and expiry.  Every failing path returns before the assignment,
so it leaves the receiver unchanged.  The `Nat` counts outbound fetches. -/
def publicKeyCache.refresh (c : publicKeyCache) (now : Int) (f : FetchOutcome) :
    GoRes FetchErr Unit × publicKeyCache × Nat :=
  if now < c.expiry then (.ok (), c, 0)
  else
    match f with
    | .netErr => (.err .net, c, 1)
    | .readErr => (.err .readBody, c, 1)
    | .resp status body cc =>
      if status != 200 then (.err (.badStatus status), c, 1)
      else
        match body with
        | none => (.err .badJSON, c, 1)
        | some certMap =>
          match buildKeys certMap with
          | .err e => (.err e, c, 1)
          | .ok ks => (.ok (), ⟨ks, now + parseMaxAge cc⟩, 1)

/-- The error cases of `publicKeyCache.getKey`. -/
inductive KeyErr where
  | notFoundValid (kid : String)
  | refreshFailed (e : FetchErr)
  | notFoundAfterRefresh (kid : String)
deriving DecidableEq

/-- `publicKeyCache.getKey`: if the cache is unexpired, answer from the map
(no I/O, `NotFound` when absent); otherwise refresh synchronously once and
repeat the lookup against the refreshed set. -/
def publicKeyCache.getKey (c : publicKeyCache) (now : Int) (f : FetchOutcome) (kid : String) :
    GoRes KeyErr PublicKey × publicKeyCache × Nat :=
  if now < c.expiry then
    match c.keys.lookup kid with
    | some k => (.ok k, c, 0)
    | none => (.err (.notFoundValid kid), c, 0)
  else
    match c.refresh now f with
    | (.err e, c', n) => (.err (.refreshFailed e), c', n)
    | (.ok _, c', n) =>
      match c'.keys.lookup kid with
      | some k => (.ok k, c', n)
      | none => (.err (.notFoundAfterRefresh kid), c', n)

-- ── Tokens and claims ────────────────────────────────────────────────

/-- Wire shape of the claims JSON: every member may be absent.  `aud` is
already normalised the way `jwt.ClaimStrings` decodes it (a JSON string
becomes a one-element list, absent becomes the empty list). -/
structure WireClaims where
  iss : Option String
  aud : List String
  sub : Option String
  exp : Option Int
  iat : Option Int
  nbf : Option Int
  email : Option String
  name : Option String
  picture : Option String
deriving DecidableEq

/-- `firebaseClaims` as decoded into the Go struct: absent string members
have become `""`, absent timestamps stay `nil`. -/
structure firebaseClaims where
  iss : String
  aud : List String
  sub : String
  exp : Option Int
  iat : Option Int
  nbf : Option Int
  email : String
  name : String
  picture : String
deriving DecidableEq

/-- `json.Unmarshal` defaulting: absent string members decode to `""`. -/
def decodeWire (w : WireClaims) : firebaseClaims :=
  ⟨w.iss.getD "", w.aud, w.sub.getD "", w.exp, w.iat, w.nbf,
   w.email.getD "", w.name.getD "", w.picture.getD ""⟩

/-- A token string, by its parse (see the header comment). -/
inductive TokenRepr where
  | malformed
  | token (alg : Option String) (kid : Option String) (wire : WireClaims) (sig : Option PublicKey)
deriving DecidableEq

/-- The signing-method names registered by `golang-jwt/jwt/v4`'s `init`
functions: `GetSigningMethod` resolves exactly these. -/
def registeredAlgs : List String :=
  ["none", "HS256", "HS384", "HS512", "RS256", "RS384", "RS512",
   "ES256", "ES384", "ES512", "PS256", "PS384", "PS512", "EdDSA"]

/-- The error cases of `ParseUnverified`. -/
inductive ParseErr where
  | malformed
  | algUnspecified
  | algUnavailable (alg : String)
deriving DecidableEq

/-- `jwt.Parser.ParseUnverified`: decode the token structurally, then resolve
the declared `alg` header against the registered methods.  It consults
neither `ValidMethods` nor the claims validators and never touches the
signature. -/
def parseUnverified (t : TokenRepr) :
    GoRes ParseErr (String × Option String × firebaseClaims × Option PublicKey) :=
  match t with
  | .malformed => .err .malformed
  | .token alg kid w sig =>
    match alg with
    | none => .err .algUnspecified
    | some a =>
      if registeredAlgs.contains a then .ok (a, kid, decodeWire w, sig)
      else .err (.algUnavailable a)

/-- The `userClaims` JSON shape returned to the client. -/
structure userClaims where
  uid : String
  email : String
  name : String
  picture : String
deriving DecidableEq

/-- `json.Marshal` of `userClaims` according to its struct tags: the four
members, always present, always strings, in declaration order. -/
def encodeUserClaims (u : userClaims) : List (String × String) :=
  [("uid", u.uid), ("email", u.email), ("name", u.name), ("picture", u.picture)]

/-- Every error `verifyIDToken` / `verifyEmulatorToken` can return, one
constructor per `return nil, err` site. -/
inductive VerifyError where
  | parseErr (e : ParseErr)
  | unexpectedAlg (alg : String)
  | missingKid
  | keyErr (e : KeyErr)
  | tokenInvalid (expired iatFuture nbfFuture sigBad : Bool)
  | missingSubject
  | badIssuer (got want : String)
  | badAudience
  | emuParseErr (e : ParseErr)
  | emuMissingSubject
deriving DecidableEq

/-- `verifyEmulatorToken`: builds a parser with
`WithValidMethods(["none","RS256"])` and `WithoutClaimsValidation()` but then
calls `ParseUnverified`, which ignores both options; so it accepts any token
whose declared `alg` is registered, never verifies a signature, and only
enforces a non-empty subject. -/
def verifyEmulatorToken (t : TokenRepr) (projectID : String) : GoRes VerifyError userClaims :=
  match parseUnverified t with
  | .err e => .err (.emuParseErr e)
  | .ok (_, _, claims, _) =>
    if claims.sub == "" then .err .emuMissingSubject
    else .ok ⟨claims.sub, claims.email, claims.name, claims.picture⟩

/-- `verifyIDToken`: unverified parse, pin the algorithm to RS256, require a
non-empty `kid`, resolve the key through the cache, then
`jwt.ParseWithClaims` restricted to RS256 (temporal-claims validation plus
signature verification), then subject / issuer / audience checks, then the
projection into `userClaims`.  Returns the updated cache and fetch count. -/
def verifyIDToken (t : TokenRepr) (projectID : String) (c : publicKeyCache) (now : Int)
    (f : FetchOutcome) : GoRes VerifyError userClaims × publicKeyCache × Nat :=
  match parseUnverified t with
  | .err e => (.err (.parseErr e), c, 0)
  | .ok (alg, kidOpt, claims, sig) =>
    if alg == "RS256" then
      match kidOpt with
      | none => (.err .missingKid, c, 0)
      | some kid =>
        if kid == "" then (.err .missingKid, c, 0)
        else
          match c.getKey now f kid with
          | (.err e, c', n) => (.err (.keyErr e), c', n)
          | (.ok pubKey, c', n) =>
            let expired : Bool :=
              match claims.exp with
              | none => false
              | some e => !(decide (now < e))
            let iatFuture : Bool :=
              match claims.iat with
              | none => false
              | some i => decide (now < i)
            let nbfFuture : Bool :=
              match claims.nbf with
              | none => false
              | some b => decide (now < b)
            let sigBad : Bool := !(sig == some pubKey)
            if expired || iatFuture || nbfFuture || sigBad then
              (.err (.tokenInvalid expired iatFuture nbfFuture sigBad), c', n)
            else if claims.sub == "" then (.err .missingSubject, c', n)
            else if claims.iss != "https://securetoken.google.com/" ++ projectID then
              (.err (.badIssuer claims.iss ("https://securetoken.google.com/" ++ projectID)), c', n)
            else if !(claims.aud.contains projectID) then (.err .badAudience, c', n)
            else (.ok ⟨claims.sub, claims.email, claims.name, claims.picture⟩, c', n)
    else (.err (.unexpectedAlg alg), c, 0)

-- ── Configuration and the GET /api/me handler ────────────────────────

/-- `firebaseConfig`: read once at startup; `AuthEmulatorHost = ""` means
production. -/
structure firebaseConfig where
  ProjectID : String
  APIKey : String
  AuthDomain : String
  AuthEmulatorHost : String
deriving DecidableEq

inductive VerifierKind where
  | production
  | emulator
deriving DecidableEq

/-- Which verifier the `newMux` closure selects, a function of the captured
configuration only. -/
def chosenVerifier (cfg : firebaseConfig) : VerifierKind :=
  if cfg.AuthEmulatorHost ≠ "" then .emulator else .production

/-- A response body: either the `errorEnvelope` written by `writeError` or
the `userClaims` written by `writeJSON`. -/
inductive BodyJSON where
  | errorEnvelope (code msg : String)
  | user (u : userClaims)
deriving DecidableEq

/-- The uniform 401 body of the handler. -/
def unauthenticatedBody : BodyJSON :=
  .errorEnvelope "UNAUTHENTICATED" "Missing or invalid authentication token"

/-- Observable outcome of one `GET /api/me` request: HTTP status, JSON body,
which verifier (if any) was invoked, the cache state afterwards, and how many
outbound key fetches happened. -/
structure HandlerOut where
  status : Nat
  body : BodyJSON
  verifierUsed : Option VerifierKind
  cache : publicKeyCache
  fetches : Nat
deriving DecidableEq

/-- The `GET /api/me` closure registered by `newMux`: read the
`Authorization` header (Go's `Header.Get` yields `""` when absent), reject
when it is empty or lacks the exact prefix `"Bearer "`, otherwise trim the
prefix and hand the remainder to the verifier selected by the captured
configuration.  `decode` is the ambient meaning of each token string as its
parse (the base64/JSON layer of the jwt library). -/
def apiMeHandler (cfg : firebaseConfig) (decode : String → TokenRepr) (auth : String)
    (c : publicKeyCache) (now : Int) (f : FetchOutcome) : HandlerOut :=
  if (auth == "") || !(goHasPre "Bearer " auth) then
    ⟨401, unauthenticatedBody, none, c, 0⟩
  else if cfg.AuthEmulatorHost ≠ "" then
    match verifyEmulatorToken (decode (goTrimPre "Bearer " auth)) cfg.ProjectID with
    | .err _ => ⟨401, unauthenticatedBody, some .emulator, c, 0⟩
    | .ok u => ⟨200, .user u, some .emulator, c, 0⟩
  else
    match verifyIDToken (decode (goTrimPre "Bearer " auth)) cfg.ProjectID c now f with
    | (.err _, c', n) => ⟨401, unauthenticatedBody, some .production, c', n⟩
    | (.ok u, c', n) => ⟨200, .user u, some .production, c', n⟩

-- ── Shared concrete fixtures (mirroring the Go test helpers) ─────────

def testProjectID : String := "test-project-123"

/-- The production configuration of the Go tests (`testCfg`). -/
def testCfg : firebaseConfig :=
  ⟨testProjectID, "AIzaSyTestKey", "test-project-123.firebaseapp.com", ""⟩

/-- The emulator configuration of the Go tests (`emulatorCfg`). -/
def emulatorCfg : firebaseConfig :=
  ⟨testProjectID, "AIzaSyTestKey", "test-project-123.firebaseapp.com", "localhost:9099"⟩

/-- The claims of `validClaims()` at reference instant `now = 0`. -/
def wireJane : WireClaims :=
  ⟨some ("https://securetoken.google.com/" ++ testProjectID), [testProjectID],
   some "user-uid-abc123", some 3600, some (-300), none,
   some "jane@example.com", some "Jane Doe", some "https://lh3.googleusercontent.com/a/photo"⟩

/-- A cache holding one key under kid `"kid1"`, valid until instant 1000. -/
def freshCache : publicKeyCache := ⟨[("kid1", 5)], 1000⟩

/-- A decoding in which every string is structurally malformed (in
particular the real decoding of the empty string, which has one dot-separated
segment instead of three). -/
def decodeMal : String → TokenRepr := fun _ => .malformed

/-- A decoding in which every string denotes Jane's unsigned emulator token. -/
def decodeJaneNone : String → TokenRepr := fun _ => .token (some "none") none wireJane none

/-- A decoding in which every string denotes Jane's RS256 token signed by the
key that `freshCache` stores under `"kid1"`. -/
def decodeJaneRS : String → TokenRepr :=
  fun _ => .token (some "RS256") (some "kid1") wireJane (some 5)

/-- Does the error of a failed result satisfy `p`?  `false` on success. -/
def GoRes.errSat {ε α : Type} (p : ε → Bool) : GoRes ε α → Bool
  | .err e => p e
  | .ok _ => false

/-- The two rejection sites reached exactly when the declared algorithm is
not RS256: the library-level `GetSigningMethod` failure for an unregistered
name, and `verifyIDToken`'s own `unexpected signing algorithm` error for a
registered one. -/
def isAlgError : VerifyError → Bool
  | .parseErr (.algUnavailable _) => true
  | .unexpectedAlg _ => true
  | _ => false

/-- `N` callers racing into `refresh`: the `sync.Mutex` serialises the
critical sections, so the concurrent execution is some sequential chain of
`refresh` bodies, each seeing the previous one's state.  Returns the final
cache and the total number of outbound fetches. -/
def refreshN : Nat → publicKeyCache → Int → FetchOutcome → publicKeyCache × Nat
  | 0, c, _, _ => (c, 0)
  | n + 1, c, now, f =>
    ((refreshN n (c.refresh now f).2.1 now f).1,
     (c.refresh now f).2.2 + (refreshN n (c.refresh now f).2.1 now f).2)

/-- A token meeting every hypothesis of claim C7 (RS256, kid in the fresh
`freshCache`, correct signature, future expiry, non-empty subject, exact
issuer, matching audience) whose `iat` lies in the future (50 > now = 0). -/
def iatFutureToken : TokenRepr :=
  .token (some "RS256") (some "kid1")
    ⟨some ("https://securetoken.google.com/" ++ testProjectID), [testProjectID],
     some "user-uid-abc123", some 3600, some 50, none,
     some "jane@example.com", some "Jane Doe", none⟩
    (some 5)

-- ── Claim theorems ───────────────────────────────────────────────────

/-- Claim C1: with an empty configured emulator host the `GET /api/me`
handler can only invoke the production verifier `verifyIDToken`; the
emulator path is unreachable, for every request, decoding, cache state,
instant and network behaviour — the branch reads only the configuration
captured at mux construction. -/
theorem c1_production_only (cfg : firebaseConfig) (decode : String → TokenRepr) (auth : String)
    (c : publicKeyCache) (now : Int) (f : FetchOutcome) (h : cfg.AuthEmulatorHost = "") :
    (apiMeHandler cfg decode auth c now f).verifierUsed ≠ some VerifierKind.emulator ∧
    ((apiMeHandler cfg decode auth c now f).verifierUsed = none ∨
      (apiMeHandler cfg decode auth c now f).verifierUsed = some VerifierKind.production) := by
  unfold apiMeHandler
  split
  · exact ⟨by simp, Or.inl rfl⟩
  · rw [if_neg (by simp [h])]
    split <;> simp

/-- Witness for C1 at the production test configuration. -/
theorem c1_witness :
    testCfg.AuthEmulatorHost = "" ∧
    ((apiMeHandler testCfg decodeJaneRS "Bearer tok" freshCache 0 FetchOutcome.netErr).verifierUsed
        ≠ some VerifierKind.emulator ∧
      ((apiMeHandler testCfg decodeJaneRS "Bearer tok" freshCache 0 FetchOutcome.netErr).verifierUsed
          = none ∨
        (apiMeHandler testCfg decodeJaneRS "Bearer tok" freshCache 0 FetchOutcome.netErr).verifierUsed
          = some VerifierKind.production)) :=
  ⟨rfl, c1_production_only testCfg decodeJaneRS "Bearer tok" freshCache 0 FetchOutcome.netErr rfl⟩

/-- Claim C10: the bearer-scheme check is `strings.HasPrefix(auth,
"Bearer ")` — exact and case-sensitive; any header without that exact prefix
is answered 401 with the uniform envelope, no verifier runs, and the cache
is untouched. -/
theorem c10_bearer_case_sensitive (cfg : firebaseConfig) (decode : String → TokenRepr)
    (auth : String) (c : publicKeyCache) (now : Int) (f : FetchOutcome)
    (h : goHasPre "Bearer " auth = false) :
    apiMeHandler cfg decode auth c now f = ⟨401, unauthenticatedBody, none, c, 0⟩ := by
  unfold apiMeHandler
  simp [h]

/-- Witness for C10: a lowercase `bearer` header is rejected although the
decoding carries a token that `verifyIDToken` would accept. -/
theorem c10_witness :
    goHasPre "Bearer " "bearer tok" = false ∧
    apiMeHandler testCfg decodeJaneRS "bearer tok" freshCache 0 FetchOutcome.netErr
      = ⟨401, unauthenticatedBody, none, freshCache, 0⟩ ∧
    (verifyIDToken (decodeJaneRS "tok") testCfg.ProjectID freshCache 0 FetchOutcome.netErr).1.isOk
      = true :=
  ⟨by decide,
   c10_bearer_case_sensitive testCfg decodeJaneRS "bearer tok" freshCache 0 FetchOutcome.netErr
     (by decide),
   by decide⟩

/-- Claim C4 counterexample: the header `"Bearer "` (empty token value after
the scheme) falls through the prefix guard, so the handler does invoke the
production verifier — refuting that the empty-token case answers without
invoking any verifier.  The observable response is still the same 401. -/
theorem c4_cex :
    goTrimPre "Bearer " "Bearer " = "" ∧ testCfg.AuthEmulatorHost = "" ∧
    (apiMeHandler testCfg decodeMal "Bearer " freshCache 0 FetchOutcome.netErr).verifierUsed
      = some VerifierKind.production ∧
    (apiMeHandler testCfg decodeMal "Bearer " freshCache 0 FetchOutcome.netErr).status = 401 ∧
    (apiMeHandler testCfg decodeMal "Bearer " freshCache 0 FetchOutcome.netErr).body
      = unauthenticatedBody := by
  decide

/-- Claim C4 as amended: a missing header or one without the exact
`"Bearer "` prefix is answered 401 with the uniform envelope without
invoking any verifier; an empty token value after `"Bearer "` produces the
same 401 envelope, but via invoking the configured verifier on the empty
string (whose parse is structurally malformed), with cache untouched and no
fetch. -/
theorem c4_amended (cfg : firebaseConfig) (decode : String → TokenRepr) (auth : String)
    (c : publicKeyCache) (now : Int) (f : FetchOutcome) :
    (((auth == "") || !(goHasPre "Bearer " auth)) = true →
      apiMeHandler cfg decode auth c now f = ⟨401, unauthenticatedBody, none, c, 0⟩) ∧
    (goHasPre "Bearer " auth = true → goTrimPre "Bearer " auth = "" →
      decode "" = TokenRepr.malformed →
      apiMeHandler cfg decode auth c now f
        = ⟨401, unauthenticatedBody, some (chosenVerifier cfg), c, 0⟩) := by
  constructor
  · intro h
    unfold apiMeHandler
    rw [if_pos h]
  · intro h1 h2 h3
    have hne : (auth == "") = false := by
      cases hb : auth == ""
      · rfl
      · exfalso
        have hae : auth = "" := by simpa using hb
        rw [hae] at h1
        simp [goHasPre] at h1
    unfold apiMeHandler
    rw [if_neg (by simp [hne, h1])]
    rw [h2, h3]
    unfold chosenVerifier
    split
    · simp [verifyEmulatorToken, parseUnverified]
    · simp [verifyIDToken, parseUnverified]

/-- Witness for C4 (amended): the missing-header case skips the verifier;
the `"Bearer "` empty-token case returns the same envelope through the
production verifier. -/
theorem c4_witness :
    apiMeHandler testCfg decodeMal "" freshCache 0 FetchOutcome.netErr
      = ⟨401, unauthenticatedBody, none, freshCache, 0⟩ ∧
    apiMeHandler testCfg decodeMal "Bearer " freshCache 0 FetchOutcome.netErr
      = ⟨401, unauthenticatedBody, some (chosenVerifier testCfg), freshCache, 0⟩ ∧
    chosenVerifier testCfg = VerifierKind.production :=
  ⟨(c4_amended testCfg decodeMal "" freshCache 0 FetchOutcome.netErr).1 (by decide),
   (c4_amended testCfg decodeMal "Bearer " freshCache 0 FetchOutcome.netErr).2 (by decide)
     (by decide) rfl,
   by decide⟩

/-- Claim C2: any token whose header declares an algorithm other than RS256
(the unsigned `none` scheme included) is rejected by `verifyIDToken` at one
of the two algorithm-rejection sites, before any key lookup (cache unchanged,
zero fetches, result independent of the cache and network) and before any
signature check (result independent of the signature); and an unsigned token
with a non-empty subject, which `verifyEmulatorToken` accepts, is among the
rejected ones. -/
theorem c2_alg_pinned (alg : String) (kid : Option String) (w : WireClaims)
    (sig sig' : Option PublicKey) (pid : String) (c c' : publicKeyCache) (now now' : Int)
    (f f' : FetchOutcome) (halg : alg ≠ "RS256") :
    (verifyIDToken (TokenRepr.token (some alg) kid w sig) pid c now f).1.errSat isAlgError
      = true ∧
    (verifyIDToken (TokenRepr.token (some alg) kid w sig) pid c now f).2 = (c, 0) ∧
    (verifyIDToken (TokenRepr.token (some alg) kid w sig) pid c now f).1
      = (verifyIDToken (TokenRepr.token (some alg) kid w sig') pid c' now' f').1 ∧
    (w.sub.getD "" ≠ "" → alg = "none" →
      verifyEmulatorToken (TokenRepr.token (some alg) kid w sig) pid
        = GoRes.ok ⟨w.sub.getD "", w.email.getD "", w.name.getD "", w.picture.getD ""⟩) := by
  have hbe : (alg == "RS256") = false := beq_eq_false_iff_ne.mpr halg
  have key : ∀ (s : Option PublicKey) (c0 : publicKeyCache) (n0 : Int) (f0 : FetchOutcome),
      verifyIDToken (TokenRepr.token (some alg) kid w s) pid c0 n0 f0
        = ((if registeredAlgs.contains alg then GoRes.err (VerifyError.unexpectedAlg alg)
            else GoRes.err (VerifyError.parseErr (ParseErr.algUnavailable alg))), c0, 0) := by
    intro s c0 n0 f0
    unfold verifyIDToken parseUnverified
    cases hc : registeredAlgs.contains alg
    · have hmem : alg ∉ registeredAlgs := by simpa using hc
      simp [hc, hmem]
    · have hmem : alg ∈ registeredAlgs := by simpa using hc
      simp [hc, hmem, halg]
  refine ⟨?_, ?_, ?_, ?_⟩
  · rw [key]
    cases hc : registeredAlgs.contains alg <;> simp [hc, GoRes.errSat, isAlgError]
  · rw [key]
  · rw [key, key]
  · intro hsub hnone
    subst hnone
    have hs : (w.sub.getD "" == "") = false := beq_eq_false_iff_ne.mpr hsub
    unfold verifyEmulatorToken parseUnverified
    simp [decodeWire, hs, hsub, show ("none" : String) ∈ registeredAlgs from by decide]

/-- Witness for C2 at Jane's unsigned token. -/
theorem c2_witness :
    (verifyIDToken (TokenRepr.token (some "none") none wireJane none) testProjectID freshCache 0
        FetchOutcome.netErr).1.errSat isAlgError = true ∧
    (verifyIDToken (TokenRepr.token (some "none") none wireJane none) testProjectID freshCache 0
        FetchOutcome.netErr).2 = (freshCache, 0) ∧
    verifyEmulatorToken (TokenRepr.token (some "none") none wireJane none) testProjectID
      = GoRes.ok ⟨"user-uid-abc123", "jane@example.com", "Jane Doe",
          "https://lh3.googleusercontent.com/a/photo"⟩ := by
  have h := c2_alg_pinned "none" none wireJane none (some 9) testProjectID freshCache freshCache
    0 0 FetchOutcome.netErr FetchOutcome.netErr (by decide)
  exact ⟨h.1, h.2.1, by decide⟩

/-- Claim C3 (evidence of the code bug): `verifyEmulatorToken` constructs a
parser restricted by `WithValidMethods(["none","RS256"])` but then calls
`ParseUnverified`, which ignores that option — so a token declaring HS256
(with a non-empty subject) is accepted, although both the spec and the
code's own parser options say only the unsigned scheme and RS256 are. -/
theorem c3_emulator_accepts_hs256 :
    verifyEmulatorToken (TokenRepr.token (some "HS256") none wireJane (some 7)) testProjectID
      = GoRes.ok ⟨"user-uid-abc123", "jane@example.com", "Jane Doe",
          "https://lh3.googleusercontent.com/a/photo"⟩ ∧
    (["none", "RS256"].contains "HS256" = false) := by
  decide

/-- Claim C5: every failing refresh (network, read, non-200, bad JSON, bad
PEM/certificate, non-RSA key) leaves the key map and expiry unchanged, and a
successful refresh that actually fetched replaces the whole map atomically
with exactly the keys built from the response (no merge with the old map)
and sets the expiry from the `Cache-Control` max-age. -/
theorem c5_refresh_frame (c : publicKeyCache) (now : Int) (f : FetchOutcome)
    (cm : List (String × CertParse)) (cc : String) (ks : List (String × PublicKey)) :
    ((c.refresh now f).1.isErr = true → (c.refresh now f).2.1 = c) ∧
    (¬ now < c.expiry → f = FetchOutcome.resp 200 (some cm) cc → buildKeys cm = GoRes.ok ks →
      c.refresh now f = (GoRes.ok (), ⟨ks, now + parseMaxAge cc⟩, 1)) := by
  constructor
  · have hd : (c.refresh now f).2.1 = c ∨ (c.refresh now f).1 = GoRes.ok () := by
      unfold publicKeyCache.refresh
      split
      · exact Or.inr rfl
      · split
        · exact Or.inl rfl
        · exact Or.inl rfl
        · split
          · exact Or.inl rfl
          · split
            · exact Or.inl rfl
            · split
              · exact Or.inl rfl
              · exact Or.inr rfl
    intro he
    rcases hd with h | h
    · exact h
    · rw [h] at he
      simp [GoRes.isErr] at he
  · intro hlt hf hb
    subst hf
    unfold publicKeyCache.refresh
    rw [if_neg hlt]
    simp [hb]

/-- Witness for C5: a network failure leaves the cache untouched; a good
response replaces the map wholesale and honours `max-age=300`. -/
theorem c5_witness :
    (publicKeyCache.refresh ⟨[("a", 1)], 10⟩ 20 FetchOutcome.netErr).1.isErr = true ∧
    (publicKeyCache.refresh ⟨[("a", 1)], 10⟩ 20 FetchOutcome.netErr).2.1 = ⟨[("a", 1)], 10⟩ ∧
    publicKeyCache.refresh ⟨[("a", 1)], 10⟩ 20
        (FetchOutcome.resp 200 (some [("b", CertParse.rsa 2)]) "public, max-age=300")
      = (GoRes.ok (), ⟨[("b", 2)], 20 + parseMaxAge "public, max-age=300"⟩, 1) := by
  have h1 := (c5_refresh_frame ⟨[("a", 1)], 10⟩ 20 FetchOutcome.netErr [] "" []).1 (by decide)
  have h2 := (c5_refresh_frame ⟨[("a", 1)], 10⟩ 20
      (FetchOutcome.resp 200 (some [("b", CertParse.rsa 2)]) "public, max-age=300")
      [("b", CertParse.rsa 2)] "public, max-age=300" [("b", 2)]).2
    (by decide) rfl (by decide)
  exact ⟨by decide, h1, h2⟩

/-- Claim C6: `getKey` against an unexpired cache performs no refresh and no
network access, leaves the cache unchanged, and answers from the map:
the key when `kid` is present, `NotFound` otherwise. -/
theorem c6_getkey_no_io_when_fresh (c : publicKeyCache) (now : Int) (f : FetchOutcome)
    (kid : String) (h : now < c.expiry) :
    c.getKey now f kid
      = ((match c.keys.lookup kid with
          | some k => GoRes.ok k
          | none => GoRes.err (KeyErr.notFoundValid kid)), c, 0) := by
  unfold publicKeyCache.getKey
  rw [if_pos h]
  cases hl : c.keys.lookup kid <;> simp [hl]

/-- Witness for C6: a hit and a miss against the fresh fixture cache. -/
theorem c6_witness :
    ((0 : Int) < freshCache.expiry) ∧
    freshCache.getKey 0 FetchOutcome.netErr "kid1" = (GoRes.ok 5, freshCache, 0) ∧
    freshCache.getKey 0 FetchOutcome.netErr "nope"
      = (GoRes.err (KeyErr.notFoundValid "nope"), freshCache, 0) := by
  have h1 := c6_getkey_no_io_when_fresh freshCache 0 FetchOutcome.netErr "kid1" (by decide)
  have h2 := c6_getkey_no_io_when_fresh freshCache 0 FetchOutcome.netErr "nope" (by decide)
  refine ⟨by decide, ?_, ?_⟩
  · rw [h1]; decide
  · rw [h2]; decide

/-- `refresh` on a fresh cache is the double-check early return: no fetch,
no change. -/
theorem refresh_fresh (c : publicKeyCache) (now : Int) (f : FetchOutcome) (h : now < c.expiry) :
    c.refresh now f = (GoRes.ok (), c, 0) := by
  unfold publicKeyCache.refresh
  rw [if_pos h]

/-- Any number of serialised `refresh` bodies against a fresh cache fetch
nothing. -/
theorem refreshN_fresh (n : Nat) (c : publicKeyCache) (now : Int) (f : FetchOutcome)
    (h : now < c.expiry) : refreshN n c now f = (c, 0) := by
  induction n with
  | zero => rfl
  | succ k ih =>
    unfold refreshN
    rw [refresh_fresh c now f h]
    simpa using ih

/-- Claim C8: `refresh` bodies are mutually exclusive (the `sync.Mutex`), so
`N` callers that simultaneously raced into an expired cache execute their
critical sections in some sequence, modelled by `refreshN`; each body
re-checks the expiry after acquiring the lock, so with a successful fetch
whose max-age is positive exactly one outbound fetch is issued, not `N`.
The second conjunct is the double-check itself: a body that acquires the
lock after the winner observes the fresh expiry and does not fetch. -/
theorem c8_single_refresh (c c' : publicKeyCache) (now : Int) (cm : List (String × CertParse))
    (cc : String) (ks : List (String × PublicKey)) (N : Nat)
    (hexp : ¬ now < c.expiry) (hb : buildKeys cm = GoRes.ok ks) (hpos : 0 < parseMaxAge cc)
    (hN : 1 ≤ N) :
    (refreshN N c now (FetchOutcome.resp 200 (some cm) cc)).2 = 1 ∧
    (now < c'.expiry →
      c'.refresh now (FetchOutcome.resp 200 (some cm) cc) = (GoRes.ok (), c', 0)) := by
  constructor
  · obtain ⟨n, rfl⟩ : ∃ n, N = n + 1 := ⟨N - 1, by omega⟩
    have h1 : c.refresh now (FetchOutcome.resp 200 (some cm) cc)
        = (GoRes.ok (), ⟨ks, now + parseMaxAge cc⟩, 1) := by
      unfold publicKeyCache.refresh
      rw [if_neg hexp]
      simp [hb]
    have h2 : now < (⟨ks, now + parseMaxAge cc⟩ : publicKeyCache).expiry := by
      simp
      omega
    unfold refreshN
    rw [h1]
    simp [refreshN_fresh n ⟨ks, now + parseMaxAge cc⟩ now (FetchOutcome.resp 200 (some cm) cc) h2]
  · intro h'
    exact refresh_fresh c' now _ h'

/-- Witness for C8: three serialised callers against an expired cache, one
fetch in total. -/
theorem c8_witness :
    (¬ (20 : Int) < (⟨[("a", 1)], 10⟩ : publicKeyCache).expiry) ∧
    (refreshN 3 ⟨[("a", 1)], 10⟩ 20
        (FetchOutcome.resp 200 (some [("b", CertParse.rsa 2)]) "")).2 = 1 ∧
    publicKeyCache.refresh ⟨[("x", 9)], 100⟩ 20
        (FetchOutcome.resp 200 (some [("b", CertParse.rsa 2)]) "")
      = (GoRes.ok (), ⟨[("x", 9)], 100⟩, 0) := by
  have h := c8_single_refresh ⟨[("a", 1)], 10⟩ ⟨[("x", 9)], 100⟩ 20 [("b", CertParse.rsa 2)] ""
    [("b", 2)] 3 (by decide) (by decide) (by decide) (by decide)
  exact ⟨by decide, h.1, h.2 (by decide)⟩

/-- Claim C7 counterexample: at `now = 0` with the fresh cache,
`iatFutureToken` meets every condition the claim lists — RS256, kid in an
unexpired cache, valid signature, expiry in the future, non-empty subject,
exact issuer, audience membership — yet `verifyIDToken` rejects it, because
the claims validation of `jwt.ParseWithClaims` also requires `iat` not to
lie in the future, a condition the claim omits. -/
theorem c7_cex :
    ((0 : Int) < freshCache.expiry) ∧
    freshCache.keys.lookup "kid1" = some 5 ∧
    (verifyIDToken iatFutureToken testProjectID freshCache 0 FetchOutcome.netErr).1
      = GoRes.err (VerifyError.tokenInvalid false true false false) := by
  decide

/-- Claim C7 as amended: for every token that parses, declares RS256 with a
non-empty kid whose key is in an unexpired cache, carries a valid signature
under that key, an expiry in the future, an issued-at not in the future when
present, a not-before not in the future when present, a non-empty subject,
the exact expected issuer and the expected audience among its audience
values, `verifyIDToken` succeeds with the claims projected into the
identity, absent profile claims defaulting to the empty string, cache
untouched and no fetch. -/
theorem c7_amended (kid : String) (w : WireClaims) (k : PublicKey) (pid : String)
    (c : publicKeyCache) (now e : Int) (f : FetchOutcome)
    (hkid : kid ≠ "")
    (hfresh : now < c.expiry)
    (hkey : c.keys.lookup kid = some k)
    (hexp : w.exp = some e) (hnow : now < e)
    (hiat : w.iat.getD now ≤ now)
    (hnbf : w.nbf.getD now ≤ now)
    (hsub : w.sub.getD "" ≠ "")
    (hiss : w.iss.getD "" = "https://securetoken.google.com/" ++ pid)
    (haud : w.aud.contains pid = true) :
    verifyIDToken (TokenRepr.token (some "RS256") (some kid) w (some k)) pid c now f
      = (GoRes.ok ⟨w.sub.getD "", w.email.getD "", w.name.getD "", w.picture.getD ""⟩,
         c, 0) := by
  have hgk : c.getKey now f kid = (GoRes.ok k, c, 0) := by
    unfold publicKeyCache.getKey
    rw [if_pos hfresh, hkey]
  have haud' : pid ∈ w.aud := by simpa using haud
  have hiat' : ∀ i, w.iat = some i → ¬ now < i := by
    intro i hi
    rw [hi] at hiat
    simp at hiat
    omega
  have hnbf' : ∀ b, w.nbf = some b → ¬ now < b := by
    intro b hb
    rw [hb] at hnbf
    simp at hnbf
    omega
  unfold verifyIDToken parseUnverified
  rcases hi : w.iat with _ | i <;> rcases hb : w.nbf with _ | b <;>
    simp [decodeWire, hgk, hkid, hsub, hiss, haud', hexp, hnow, hi, hb,
      hiat' _ , hnbf' _, show ("RS256" : String) ∈ registeredAlgs from by decide]

/-- Witness for C7 (amended) at Jane's signed token and the fresh cache. -/
theorem c7_witness :
    verifyIDToken (TokenRepr.token (some "RS256") (some "kid1") wireJane (some 5)) testProjectID
        freshCache 0 FetchOutcome.netErr
      = (GoRes.ok ⟨"user-uid-abc123", "jane@example.com", "Jane Doe",
          "https://lh3.googleusercontent.com/a/photo"⟩, freshCache, 0) := by
  have h := c7_amended "kid1" wireJane 5 testProjectID freshCache 0 3600 FetchOutcome.netErr
    (by decide) (by decide) (by decide) (by decide) (by decide) (by decide) (by decide)
    (by decide) (by decide) (by decide)
  simpa [wireJane] using h

/-- A successful `verifyEmulatorToken` output is the getD-projection of the
wire claims of a structurally parsed token. -/
theorem verifyEmulatorToken_ok_shape (t : TokenRepr) (pid : String) (u : userClaims)
    (h : verifyEmulatorToken t pid = GoRes.ok u) :
    ∃ alg kid w sig, t = TokenRepr.token (some alg) kid w sig ∧
      u = ⟨w.sub.getD "", w.email.getD "", w.name.getD "", w.picture.getD ""⟩ := by
  cases t with
  | malformed => simp [verifyEmulatorToken, parseUnverified] at h
  | token alg kid w sig =>
    cases alg with
    | none => simp [verifyEmulatorToken, parseUnverified] at h
    | some a =>
      refine ⟨a, kid, w, sig, rfl, ?_⟩
      by_cases hc : registeredAlgs.contains a = true
      · have hm : a ∈ registeredAlgs := by simpa using hc
        have hp : parseUnverified (TokenRepr.token (some a) kid w sig)
            = GoRes.ok (a, kid, decodeWire w, sig) := by
          simp [parseUnverified, hm]
        unfold verifyEmulatorToken at h
        rw [hp] at h
        simp only [] at h
        split at h
        · exact absurd h (by simp)
        · simp only [GoRes.ok.injEq] at h
          simp [← h, decodeWire]
      · have hm' : a ∉ registeredAlgs := by simpa using hc
        simp [verifyEmulatorToken, parseUnverified, hm'] at h

/-- A successful `verifyIDToken` output is the getD-projection of the wire
claims of a structurally parsed token. -/
theorem verifyIDToken_ok_shape (t : TokenRepr) (pid : String) (c : publicKeyCache) (now : Int)
    (f : FetchOutcome) (u : userClaims) (h : (verifyIDToken t pid c now f).1 = GoRes.ok u) :
    ∃ alg kid w sig, t = TokenRepr.token (some alg) kid w sig ∧
      u = ⟨w.sub.getD "", w.email.getD "", w.name.getD "", w.picture.getD ""⟩ := by
  cases t with
  | malformed => simp [verifyIDToken, parseUnverified] at h
  | token alg kid w sig =>
    cases alg with
    | none => simp [verifyIDToken, parseUnverified] at h
    | some a =>
      refine ⟨a, kid, w, sig, rfl, ?_⟩
      by_cases hc : registeredAlgs.contains a = true
      · have hm : a ∈ registeredAlgs := by simpa using hc
        have hp : parseUnverified (TokenRepr.token (some a) kid w sig)
            = GoRes.ok (a, kid, decodeWire w, sig) := by
          simp [parseUnverified, hm]
        unfold verifyIDToken at h
        rw [hp] at h
        simp only [] at h
        split at h
        · split at h
          · simp at h
          · split at h
            · simp at h
            · split at h
              · simp at h
              · split at h
                · simp at h
                · split at h
                  · simp at h
                  · split at h
                    · simp at h
                    · split at h
                      · simp at h
                      · simp only [GoRes.ok.injEq, Prod.fst] at h
                        simp [← h, decodeWire]
        · simp at h
      · have hm' : a ∉ registeredAlgs := by simpa using hc
        simp [verifyIDToken, parseUnverified, hm'] at h

/-- Every `GET /api/me` outcome is either the uniform 401 envelope or a 200
whose body is the output of the verifier selected by the configuration. -/
theorem apiMeHandler_cases (cfg : firebaseConfig) (decode : String → TokenRepr) (auth : String)
    (c : publicKeyCache) (now : Int) (f : FetchOutcome) :
    ((apiMeHandler cfg decode auth c now f).status = 401 ∧
      (apiMeHandler cfg decode auth c now f).body = unauthenticatedBody) ∨
    (∃ u, (apiMeHandler cfg decode auth c now f).status = 200 ∧
      (apiMeHandler cfg decode auth c now f).body = BodyJSON.user u ∧
      (verifyEmulatorToken (decode (goTrimPre "Bearer " auth)) cfg.ProjectID = GoRes.ok u ∨
        (verifyIDToken (decode (goTrimPre "Bearer " auth)) cfg.ProjectID c now f).1
          = GoRes.ok u)) := by
  unfold apiMeHandler
  split
  · exact Or.inl ⟨rfl, rfl⟩
  · split
    · rcases hv : verifyEmulatorToken (decode (goTrimPre "Bearer " auth)) cfg.ProjectID with u | e
      · exact Or.inr ⟨u, rfl, rfl, Or.inl rfl⟩
      · exact Or.inl ⟨rfl, rfl⟩
    · rcases hv : verifyIDToken (decode (goTrimPre "Bearer " auth)) cfg.ProjectID c now f
        with ⟨res, c', n⟩
      rcases res with u | e
      · exact Or.inr ⟨u, rfl, rfl, Or.inr rfl⟩
      · exact Or.inl ⟨rfl, rfl⟩

/-- Claim C9: every successful `GET /api/me` body (production or emulator
mode alike) is the four-key object `uid, email, name, picture`, always
strings, the values being the wire claims with any absent profile claim
rendered as the empty string — so absence and emptiness are
indistinguishable at the interface for all three optional profile fields
(second conjunct). -/
theorem c9_success_body (cfg : firebaseConfig) (decode : String → TokenRepr) (auth : String)
    (c : publicKeyCache) (now : Int) (f : FetchOutcome) (w' : WireClaims)
    (h : (apiMeHandler cfg decode auth c now f).status = 200) :
    (∃ u, (apiMeHandler cfg decode auth c now f).body = BodyJSON.user u ∧
      (encodeUserClaims u).map Prod.fst = ["uid", "email", "name", "picture"] ∧
      ∃ alg kid w sig, decode (goTrimPre "Bearer " auth) = TokenRepr.token (some alg) kid w sig ∧
        u = ⟨w.sub.getD "", w.email.getD "", w.name.getD "", w.picture.getD ""⟩) ∧
    decodeWire { w' with email := none, name := none, picture := none }
      = decodeWire { w' with email := some "", name := some "", picture := some "" } := by
  refine ⟨?_, by simp [decodeWire]⟩
  rcases apiMeHandler_cases cfg decode auth c now f with ⟨h401, _⟩ | ⟨u, _, hbody, hok⟩
  · rw [h401] at h
    simp at h
  · refine ⟨u, hbody, rfl, ?_⟩
    rcases hok with hok | hok
    · rcases verifyEmulatorToken_ok_shape _ _ _ hok with ⟨alg, kid, w, sig, ht, hu⟩
      exact ⟨alg, kid, w, sig, ht, hu⟩
    · rcases verifyIDToken_ok_shape _ _ _ _ _ _ hok with ⟨alg, kid, w, sig, ht, hu⟩
      exact ⟨alg, kid, w, sig, ht, hu⟩

/-- Witness for C9: a 200 in emulator mode with Jane's unsigned token. -/
theorem c9_witness :
    (apiMeHandler emulatorCfg decodeJaneNone "Bearer x" freshCache 0 FetchOutcome.netErr).status
      = 200 ∧
    (∃ u, (apiMeHandler emulatorCfg decodeJaneNone "Bearer x" freshCache 0
        FetchOutcome.netErr).body = BodyJSON.user u ∧
      (encodeUserClaims u).map Prod.fst = ["uid", "email", "name", "picture"] ∧
      ∃ alg kid w sig,
        decodeJaneNone (goTrimPre "Bearer " "Bearer x") = TokenRepr.token (some alg) kid w sig ∧
        u = ⟨w.sub.getD "", w.email.getD "", w.name.getD "", w.picture.getD ""⟩) ∧
    decodeWire { wireJane with email := none, name := none, picture := none }
      = decodeWire { wireJane with email := some "", name := some "", picture := some "" } := by
  have h := c9_success_body emulatorCfg decodeJaneNone "Bearer x" freshCache 0 FetchOutcome.netErr
    wireJane (by decide)
  exact ⟨by decide, h.1, h.2⟩
